import Mathlib

/-!
# Verification of the honggfuzz core against its specification

Shallow embedding of the core fuzzing routines of honggfuzz 0.6rc
(`fuzz.c`, `files.c`, data model from `common.h`) and proofs about them.

Machine integers are modelled as `Nat` with explicit reduction modulo
`2 ^ 64`; the C conversion of an unsigned 64-bit value to `int64_t`
(two's complement, as on the supported compilers) is modelled by
`i64ofU64`.  Fallible operations return `Option` or a dedicated result
type; external-world effects (file reads, writes, `fork`, the child's
wait status) enter the model as explicit parameters.
-/

/-- Width constant: `2 ^ 64`, the modulus of C `uint64_t` arithmetic. -/
def U64MOD : Nat := 2 ^ 64

/-- Half constant: `2 ^ 63`, the first value that is negative as `int64_t`. -/
def I64HALF : Nat := 2 ^ 63

/-- Wrapping unsigned 64-bit subtraction: `(a - b) mod 2^64`. -/
def u64sub (a b : Nat) : Nat :=
  (a % U64MOD + (U64MOD - b % U64MOD)) % U64MOD

/-- Reinterpretation of an unsigned 64-bit value as a two's-complement
`int64_t`, as performed by the C assignments
`int64_t diff0 = hfuzz->hwCnts.cpuInstrCnt - fuzzer.hwCnts.cpuInstrCnt;`
in `fuzz_fuzzLoop` (fuzz.c:354-358). -/
def i64ofU64 (x : Nat) : Int :=
  if x < I64HALF then (x : Int) else (x : Int) - (U64MOD : Int)

/-- Hardware counter vector `hwcnt_t` (common.h:110-116): five unsigned
64-bit counters. -/
structure Hwcnt where
  cpuInstrCnt : Nat
  cpuBranchCnt : Nat
  pcCnt : Nat
  pathCnt : Nat
  customCnt : Nat
deriving DecidableEq

/-- Each counter of the vector is below `2 ^ 63` (no wraparound in the
signed reinterpretation of differences). -/
def hwBounded (h : Hwcnt) : Prop :=
  h.cpuInstrCnt < I64HALF ∧ h.cpuBranchCnt < I64HALF ∧ h.pcCnt < I64HALF ∧
  h.pathCnt < I64HALF ∧ h.customCnt < I64HALF

instance (h : Hwcnt) : Decidable (hwBounded h) :=
  inferInstanceAs (Decidable (h.cpuInstrCnt < I64HALF ∧ h.cpuBranchCnt < I64HALF ∧
    h.pcCnt < I64HALF ∧ h.pathCnt < I64HALF ∧ h.customCnt < I64HALF))

/-- Pointwise unsigned comparison of two counter vectors. -/
def hwLe (a b : Hwcnt) : Prop :=
  a.cpuInstrCnt ≤ b.cpuInstrCnt ∧ a.cpuBranchCnt ≤ b.cpuBranchCnt ∧
  a.pcCnt ≤ b.pcCnt ∧ a.pathCnt ≤ b.pathCnt ∧ a.customCnt ≤ b.customCnt

/-- One dimension of the acceptance test of `fuzz_fuzzLoop`
(fuzz.c:354-360): the difference `best - cand` is computed in `uint64_t`
(wrapping), stored into an `int64_t`, and compared `≤ 0`. -/
def diffLe0 (best cand : Nat) : Bool :=
  decide (i64ofU64 (u64sub best cand) ≤ 0)

/-- Acceptance condition of the feedback-store update in `fuzz_fuzzLoop`
(fuzz.c:360): the candidate is accepted when all five signed differences
are `≤ 0`. -/
def fuzz_acceptCond (best cand : Hwcnt) : Bool :=
  diffLe0 best.cpuInstrCnt cand.cpuInstrCnt &&
  diffLe0 best.cpuBranchCnt cand.cpuBranchCnt &&
  diffLe0 best.pcCnt cand.pcCnt &&
  diffLe0 best.pathCnt cand.pathCnt &&
  diffLe0 best.customCnt cand.customCnt

/-- Modelled from the spec: acceptance rule stated by the specification
("Accepts iff for every enabled dimension d, candidate_counters[d] ≥
best_counters[d]", all five counters compared as unsigned 64-bit
values).  Used only to compare the code's rule with the spec's rule. -/
def spec_dominates (best cand : Hwcnt) : Bool :=
  decide (best.cpuInstrCnt ≤ cand.cpuInstrCnt) &&
  decide (best.cpuBranchCnt ≤ cand.cpuBranchCnt) &&
  decide (best.pcCnt ≤ cand.pcCnt) &&
  decide (best.pathCnt ≤ cand.pathCnt) &&
  decide (best.customCnt ≤ cand.customCnt)

/-- Shared "best" triple of the feedback store
(`hfuzz->dynamicFileBest`, `hfuzz->dynamicFileBestSz`, `hfuzz->hwCnts`;
common.h:209-212).  The buffer is represented by the list of its first
`dynamicFileBestSz` bytes, the only bytes any reader observes. -/
structure FeedbackState where
  bestBytes : List Nat
  hwCnts : Hwcnt
deriving DecidableEq

/-- View of the two workspace files touched by the publish step:
`work_dir/CURRENT_BEST` and `work_dir/.tmp.CURRENT_BEST`.  `none` means
the file does not exist. -/
structure WorkFS where
  currentBest : Option (List Nat)
  tmpCurrentBest : Option (List Nat)
deriving DecidableEq

/-- `files_writeBufToFile` (files.c:75-94) acting on the state of the one
file it targets: `open` failure leaves the file as it was and fails;
`write` failure unlinks the (possibly partial) file and fails; otherwise
the file holds exactly the buffer.  `openOk`/`writeOk` are the outcomes
of the two system calls. -/
def files_writeBufToFile (file : Option (List Nat)) (openOk writeOk : Bool)
    (buf : List Nat) : Option (List Nat) × Bool :=
  if openOk = false then (file, false)
  else if writeOk = false then (none, false)
  else (some buf, true)

/-- Publication of a new best (fuzz.c:380-388): write the bytes to
`.tmp.CURRENT_BEST` via `files_writeBufToFile`, and only on success
`rename` the temporary onto `CURRENT_BEST`. -/
def fuzz_publishBest (fs : WorkFS) (openOk writeOk : Bool) (buf : List Nat) :
    WorkFS :=
  let w := files_writeBufToFile fs.tmpCurrentBest openOk writeOk buf
  if w.2 then { currentBest := w.1, tmpCurrentBest := none }
  else { fs with tmpCurrentBest := w.1 }

/-- Inputs of one feedback-store update (fuzz.c:352-390): the candidate's
bytes (`fuzzer.dynamicFile`, first `dynamicFileSz` bytes), its counter
vector, and the outcomes of the two system calls of the publish step. -/
structure Candidate where
  bytes : List Nat
  hwCnts : Hwcnt
  openOk : Bool
  writeOk : Bool
deriving DecidableEq

/-- Feedback-store update performed after reaping the child
(fuzz.c:352-390): compute the five signed differences, and when all are
`≤ 0` copy the candidate into the best triple and publish it to
`CURRENT_BEST`; otherwise leave both the store and the filesystem
untouched. -/
def fuzz_updateBest (st : FeedbackState) (fs : WorkFS) (c : Candidate) :
    FeedbackState × WorkFS :=
  if fuzz_acceptCond st.hwCnts c.hwCnts then
    ({ bestBytes := c.bytes, hwCnts := c.hwCnts },
     fuzz_publishBest fs c.openOk c.writeOk c.bytes)
  else (st, fs)

/-- A sequence of feedback-store updates, one per reaped iteration. -/
def fuzz_runUpdates : FeedbackState → WorkFS → List Candidate →
    FeedbackState × WorkFS
  | st, fs, [] => (st, fs)
  | st, fs, c :: cs =>
    let r := fuzz_updateBest st fs c
    fuzz_runUpdates r.1 r.2 cs

/-- Contents of every accepted best buffer along a sequence of updates,
in order of acceptance. -/
def fuzz_acceptedBests : FeedbackState → List Candidate → List (List Nat)
  | _, [] => []
  | st, c :: cs =>
    if fuzz_acceptCond st.hwCnts c.hwCnts then
      c.bytes :: fuzz_acceptedBests { bestBytes := c.bytes, hwCnts := c.hwCnts } cs
    else fuzz_acceptedBests st cs

/-- Integrity of the published `CURRENT_BEST` file: it is absent or holds
the contents of some best accepted so far (`A` collects contents accepted
before this run started). -/
def currentBestOk (cb : Option (List Nat)) (A : List (List Nat)) : Prop :=
  cb = none ∨ ∃ bs ∈ A, cb = some bs

/-- Fields of `honggfuzz_t` consulted by the dynamic preparation step
(`inputFile` is the presence of an input corpus; the buffer is the list
of the first `dynamicFileBestSz` bytes of `dynamicFileBest`). -/
structure DynState where
  inputFile : Bool
  hwCnts : Hwcnt
  dynamicFileBest : List Nat
  maxFileSz : Nat
deriving DecidableEq

/-- All five recorded counters are zero (the seeding guard of
fuzz.c:117-119). -/
def allCntZero (h : Hwcnt) : Bool :=
  decide (h.cpuInstrCnt = 0) && decide (h.cpuBranchCnt = 0) &&
  decide (h.pcCnt = 0) && decide (h.pathCnt = 0) && decide (h.customCnt = 0)

/-- Some recorded counter is positive (the mangling guard of
fuzz.c:141-142). -/
def anyCntNonzero (h : Hwcnt) : Bool :=
  decide (0 < h.cpuInstrCnt) || decide (0 < h.cpuBranchCnt) ||
  decide (0 < h.pcCnt) || decide (0 < h.pathCnt) || decide (0 < h.customCnt)

/-- Lazy seeding of the dynamic best buffer (fuzz.c:117-128): when an
input corpus is configured and no counter was ever recorded, read the
chosen seed into the best buffer (`seedRead` is the outcome of
`files_readFileToBufMax`, `none` when it returns 0); otherwise leave the
store untouched.  `none` is the failing return of fuzz.c:122-126. -/
def fuzz_seedInitial (hz : DynState) (seedRead : Option (List Nat)) :
    Option DynState :=
  if hz.inputFile && allCntZero hz.hwCnts then
    match seedRead with
    | none => none
    | some bs => some { hz with dynamicFileBest := bs }
  else some hz

/-- Outcome of `fuzz_prepareFileDynamically`: `fatalExit` is the
process-terminating `LOGMSG(l_FATAL, ...)` of fuzz.c:130-133; `failure`
and `success` carry the (possibly seeded) global state, and `success`
additionally the bytes materialized into the candidate file. -/
inductive DynPrepResult
  | fatalExit
  | failure (hz : DynState)
  | success (hz : DynState) (buf : List Nat)
deriving DecidableEq

/-- `fuzz_prepareFileDynamically` (fuzz.c:113-168).  `resize`/`mangle`
stand for `mangle_Resize` and `mangle_mangleContent` (defined outside
this repository) and `writeOk` is the outcome of `files_writeBufToFile`
on the candidate path.  The steps, in source order: lazy seeding; the
fatal size check; snapshot of the best into the iteration buffer;
resize+mangle only when some counter is positive (fuzz.c:140-158, "The
first pass should be on an empty/initial file"); materialization. -/
def fuzz_prepareFileDynamically (hz : DynState) (seedRead : Option (List Nat))
    (resize mangle : List Nat → List Nat) (writeOk : Bool) : DynPrepResult :=
  match fuzz_seedInitial hz seedRead with
  | none => DynPrepResult.failure hz
  | some hz1 =>
    if hz1.dynamicFileBest.length > hz1.maxFileSz then DynPrepResult.fatalExit
    else if writeOk then
      DynPrepResult.success hz1
        (if anyCntNonzero hz1.hwCnts then mangle (resize hz1.dynamicFileBest)
         else hz1.dynamicFileBest)
    else DynPrepResult.failure hz1

/-- `fuzz_prepareFile` (fuzz.c:170-199), the plain preparation mode:
read the chosen seed, resize, mangle, materialize.  Returns the
materialized candidate bytes, or `none` when the iteration failed. -/
def fuzz_prepareFile (seedRead : Option (List Nat))
    (resize mangle : List Nat → List Nat) (writeOk : Bool) : Option (List Nat) :=
  match seedRead with
  | none => none
  | some bs =>
    if writeOk then some (mangle (resize bs)) else none

/-- Wait status of the external mutator child, as classified by
`WIFEXITED` / `WIFSIGNALED`. -/
inductive ChildStatus
  | exited (code : Nat)
  | signaled (sig : Nat)
deriving DecidableEq

/-- Inputs of `fuzz_prepareFileExternally`: outcomes of the temporary
file creation, of the optional seed read and write (used only when an
input corpus is configured), of `fork`, and the child's wait status. -/
structure ExtEnv where
  openOk : Bool
  inputFile : Bool
  seedRead : Option (List Nat)
  writeOk : Bool
  forkOk : Bool
  childStatus : ChildStatus
deriving DecidableEq

/-- `fuzz_prepareFileExternally` (fuzz.c:201-269): create the candidate
file; when an input corpus is configured, read the chosen seed and write
it into the candidate; fork and exec the external mutator; wait.  A
child that passes `WIFEXITED` yields `true` (the exit status is only
logged, fuzz.c:257-260); a signalled child yields `false`. -/
def fuzz_prepareFileExternally (e : ExtEnv) : Bool :=
  if e.openOk = false then false
  else
    let afterCopy : Bool :=
      if e.inputFile then
        match e.seedRead with
        | none => false
        | some _ => e.writeOk
      else true
    if afterCopy = false then false
    else if e.forkOk = false then false
    else
      match e.childStatus with
      | ChildStatus.exited _ => true
      | ChildStatus.signaled _ => false

/-- Modelled from the spec: the failure rule the specification assigns
to the external-mutator step ("on non-zero or signalled exit, fail the
iteration").  Used only to compare the code's rule with the spec's. -/
def spec_extMutFails (s : ChildStatus) : Bool :=
  match s with
  | ChildStatus.exited code => decide (code ≠ 0)
  | ChildStatus.signaled _ => true

/-- Outcome of the preparation phase of one `fuzz_fuzzLoop` iteration:
`processExitFailure` is the `exit(EXIT_FAILURE)` of fuzz.c:300-310,
`fatalExit` the fatal log inside the dynamic path, `proceeded` means the
loop goes on to fork and launch the target. -/
inductive PrepPhaseOutcome
  | processExitFailure
  | fatalExit
  | proceeded
deriving DecidableEq

/-- Preparation-phase dispatch of `fuzz_fuzzLoop` (fuzz.c:299-311):
dynamic mode when `dynFileMethod != _HF_DYNFILE_NONE`, else external
mode when an external command is configured, else plain mode; each
branch calls `exit(EXIT_FAILURE)` when its preparation fails. -/
def fuzz_fuzzLoopPrepPhase (hz : DynState) (dynMethodSet hasExternal : Bool)
    (seedRead : Option (List Nat)) (resize mangle : List Nat → List Nat)
    (writeOk : Bool) (ext : ExtEnv) : PrepPhaseOutcome :=
  if dynMethodSet then
    match fuzz_prepareFileDynamically hz seedRead resize mangle writeOk with
    | DynPrepResult.fatalExit => PrepPhaseOutcome.fatalExit
    | DynPrepResult.failure _ => PrepPhaseOutcome.processExitFailure
    | DynPrepResult.success _ _ => PrepPhaseOutcome.proceeded
  else if hasExternal then
    if fuzz_prepareFileExternally ext then PrepPhaseOutcome.proceeded
    else PrepPhaseOutcome.processExitFailure
  else
    match fuzz_prepareFile seedRead resize mangle writeOk with
    | none => PrepPhaseOutcome.processExitFailure
    | some _ => PrepPhaseOutcome.proceeded

/-- Kind of a directory entry as reported by `stat`. -/
inductive FileKind
  | regular
  | directory
  | other
deriving DecidableEq

/-- One immediate child of the input directory: an identifier for its
path, whether `stat` on it succeeded, its kind, and its size. -/
structure DirEnt where
  ident : Nat
  statOk : Bool
  kind : FileKind
  size : Nat
deriving DecidableEq

/-- Filter applied by `files_readdir` to each entry (files.c:185-204):
`stat` must succeed and the entry must be a regular, non-empty file of
size at most `maxSz`. -/
def files_entryAccept (maxSz : Nat) (e : DirEnt) : Bool :=
  e.statOk && decide (e.kind = FileKind.regular) && decide (e.size ≠ 0) &&
  decide (e.size ≤ maxSz)

/-- The condition the specification states for corpus membership: a
regular, non-empty file of size at most `maxSz`. -/
def goodSeedFile (maxSz : Nat) (e : DirEnt) : Bool :=
  decide (e.kind = FileKind.regular) && decide (e.size ≠ 0) &&
  decide (e.size ≤ maxSz)

/-- Loop of `files_readdir` (files.c:162-220): `acc` is the list built
so far (`hfuzz->files` with `count` entries); entries failing `stat`,
non-regular, empty or oversized entries are skipped; at end of
directory the function fails iff `count == 0`. -/
def files_readdir_go (maxSz : Nat) : List DirEnt → List DirEnt →
    Option (List DirEnt)
  | acc, [] => if acc.length > 0 then some acc else none
  | acc, e :: rest =>
    if e.statOk = false then files_readdir_go maxSz acc rest
    else if e.kind ≠ FileKind.regular then files_readdir_go maxSz acc rest
    else if e.size = 0 then files_readdir_go maxSz acc rest
    else if e.size > maxSz then files_readdir_go maxSz acc rest
    else files_readdir_go maxSz (acc ++ [e]) rest

/-- `files_readdir` (files.c:153-224) on the list of immediate children
of the input directory. -/
def files_readdir (maxSz : Nat) (entries : List DirEnt) : Option (List DirEnt) :=
  files_readdir_go maxSz [] entries

/-- `stat` result on the configured input path. -/
inductive InputStat
  | statFail
  | isDir (entries : List DirEnt)
  | isReg (size : Nat)
  | isOther
deriving DecidableEq

/-- One entry of `hfuzz->files` after `files_init`: either a synthetic
placeholder string (`"DYNAMIC_FILE"` / `"CREATED"`) or a real path with
its `stat` data. -/
inductive SeedEntry
  | dynamicPlaceholder
  | createdPlaceholder
  | real (e : DirEnt)
deriving DecidableEq

/-- Configuration consulted by `files_init`: whether a dynamic feedback
method is enabled, whether an external command is configured, the input
path's `stat` result (`none` when no input path is configured), and the
maximum file size. -/
structure InitCfg where
  dynFileMethodSet : Bool
  externalCommand : Bool
  inputFile : Option InputStat
  maxFileSz : Nat

/-- `files_init` (files.c:226-277): synthetic placeholder when dynamic
or external mode runs without an input path; otherwise `stat` the input
path, recurse into `files_readdir` for a directory, and accept a single
regular file unless it exceeds `maxFileSz`. -/
def files_init (cfg : InitCfg) : Option (List SeedEntry) :=
  if cfg.dynFileMethodSet && cfg.inputFile.isNone then
    some [SeedEntry.dynamicPlaceholder]
  else if cfg.externalCommand && cfg.inputFile.isNone then
    some [SeedEntry.createdPlaceholder]
  else
    match cfg.inputFile with
    | none => none
    | some InputStat.statFail => none
    | some (InputStat.isDir entries) =>
      (files_readdir cfg.maxFileSz entries).map (List.map SeedEntry.real)
    | some (InputStat.isReg sz) =>
      if sz > cfg.maxFileSz then none
      else some [SeedEntry.real { ident := 0, statOk := true,
                                  kind := FileKind.regular, size := sz }]
    | some InputStat.isOther => none

/-- Loop of `files_parseBlacklist` (files.c:495-524) over the values
parsed from successive lines: each value is appended at index
`blacklistCnt`; when `blacklistCnt > 1` the entry just stored is
compared against its predecessor and a descending pair aborts the
parse. -/
def files_parseBlacklist_go (acc : List Nat) : List Nat → Option (List Nat)
  | [] => some acc
  | v :: rest =>
    if acc.length > 1 &&
        decide ((acc ++ [v]).getD (acc.length - 1) 0 > (acc ++ [v]).getD acc.length 0)
    then none
    else files_parseBlacklist_go (acc ++ [v]) rest

/-- `files_parseBlacklist` (files.c:487-533) applied to the list of
unsigned 64-bit values parsed from the blacklist file's lines. -/
def files_parseBlacklist (vals : List Nat) : Option (List Nat) :=
  files_parseBlacklist_go [] vals

/-- Concrete counter vector: all zeros. -/
def hwZero : Hwcnt :=
  { cpuInstrCnt := 0, cpuBranchCnt := 0, pcCnt := 0, pathCnt := 0, customCnt := 0 }

/-- Concrete counter vector: all ones. -/
def hwOne : Hwcnt :=
  { cpuInstrCnt := 1, cpuBranchCnt := 1, pcCnt := 1, pathCnt := 1, customCnt := 1 }

/-- Concrete counter vector: all twos. -/
def hwTwo : Hwcnt :=
  { cpuInstrCnt := 2, cpuBranchCnt := 2, pcCnt := 2, pathCnt := 2, customCnt := 2 }

/-- Concrete counter vector with `2 ^ 63` in the instruction dimension. -/
def hwHigh : Hwcnt :=
  { cpuInstrCnt := 9223372036854775808, cpuBranchCnt := 0, pcCnt := 0,
    pathCnt := 0, customCnt := 0 }

/-- Concrete feedback state whose instruction counter is `2 ^ 63`. -/
def stHigh : FeedbackState := { bestBytes := [], hwCnts := hwHigh }

/-- Concrete feedback state with all counters zero. -/
def stZero : FeedbackState := { bestBytes := [], hwCnts := hwZero }

/-- Concrete workspace filesystem with neither file present. -/
def fs0 : WorkFS := { currentBest := none, tmpCurrentBest := none }

/-- Concrete candidate with all counters zero. -/
def candLow : Candidate :=
  { bytes := [1], hwCnts := hwZero, openOk := true, writeOk := true }

/-- Concrete candidate with all counters one. -/
def candAccept : Candidate :=
  { bytes := [2], hwCnts := hwOne, openOk := true, writeOk := true }

/-- Concrete dynamic-mode state before any counter was recorded. -/
def dynZero : DynState :=
  { inputFile := true, hwCnts := hwZero, dynamicFileBest := [], maxFileSz := 10 }

/-- Concrete dynamic-mode state `dynZero` after seeding with `[5]`. -/
def dynSeeded : DynState :=
  { inputFile := true, hwCnts := hwZero, dynamicFileBest := [5], maxFileSz := 10 }

/-- Concrete dynamic-mode state with counters already recorded. -/
def dynBusy : DynState :=
  { inputFile := true, hwCnts := hwOne, dynamicFileBest := [7], maxFileSz := 10 }

/-- Concrete stand-in for `mangle_Resize`: prepend a `0` byte. -/
def consZero (l : List Nat) : List Nat := 0 :: l

/-- Concrete stand-in for `mangle_mangleContent`: prepend a `1` byte. -/
def consOne (l : List Nat) : List Nat := 1 :: l

/-- Concrete external-mutator environment whose child exits with 0. -/
def extOk : ExtEnv :=
  { openOk := true, inputFile := false, seedRead := none, writeOk := true,
    forkOk := true, childStatus := ChildStatus.exited 0 }

/-- Concrete external-mutator environment whose child exits with 1. -/
def extExit1 : ExtEnv :=
  { openOk := true, inputFile := false, seedRead := none, writeOk := true,
    forkOk := true, childStatus := ChildStatus.exited 1 }

/-- Concrete directory entry: a regular 3-byte file. -/
def entGood : DirEnt :=
  { ident := 1, statOk := true, kind := FileKind.regular, size := 3 }

/-- Concrete directory entry produced by `files_init` for an empty
single-file input. -/
def entEmpty : DirEnt :=
  { ident := 0, statOk := true, kind := FileKind.regular, size := 0 }

/-- Concrete configuration whose input path is a directory holding one
good entry. -/
def cfgDir : InitCfg :=
  { dynFileMethodSet := false, externalCommand := false,
    inputFile := some (InputStat.isDir [entGood]), maxFileSz := 10 }

/-- Concrete configuration whose input path is an empty regular file. -/
def cfgEmptyFile : InitCfg :=
  { dynFileMethodSet := false, externalCommand := false,
    inputFile := some (InputStat.isReg 0), maxFileSz := 10 }

theorem diffLe0_eq_true_iff (b c : Nat) (hb : b < I64HALF) (hc : c < I64HALF) :
    diffLe0 b c = true ↔ b ≤ c := by
  have h64 : U64MOD = 18446744073709551616 := by norm_num [U64MOD]
  have h63 : I64HALF = 9223372036854775808 := by norm_num [I64HALF]
  rw [h63] at hb hc
  unfold diffLe0 i64ofU64 u64sub
  rw [h64, h63, decide_eq_true_eq]
  split <;> omega

theorem fuzz_accept_hwLe (a b : Hwcnt) (ha : hwBounded a) (hb : hwBounded b)
    (h : fuzz_acceptCond a b = true) : hwLe a b := by
  obtain ⟨ha1, ha2, ha3, ha4, ha5⟩ := ha
  obtain ⟨hb1, hb2, hb3, hb4, hb5⟩ := hb
  simp only [fuzz_acceptCond, Bool.and_eq_true] at h
  obtain ⟨⟨⟨⟨h1, h2⟩, h3⟩, h4⟩, h5⟩ := h
  exact ⟨(diffLe0_eq_true_iff _ _ ha1 hb1).mp h1,
    (diffLe0_eq_true_iff _ _ ha2 hb2).mp h2,
    (diffLe0_eq_true_iff _ _ ha3 hb3).mp h3,
    (diffLe0_eq_true_iff _ _ ha4 hb4).mp h4,
    (diffLe0_eq_true_iff _ _ ha5 hb5).mp h5⟩

theorem hwLe_trans {a b c : Hwcnt} (h1 : hwLe a b) (h2 : hwLe b c) :
    hwLe a c := by
  obtain ⟨x1, x2, x3, x4, x5⟩ := h1
  obtain ⟨y1, y2, y3, y4, y5⟩ := h2
  exact ⟨le_trans x1 y1, le_trans x2 y2, le_trans x3 y3, le_trans x4 y4,
    le_trans x5 y5⟩

theorem hwLe_refl (a : Hwcnt) : hwLe a a :=
  ⟨le_refl _, le_refl _, le_refl _, le_refl _, le_refl _⟩

theorem fuzz_runUpdates_hwLe (cs : List Candidate) :
    ∀ (st : FeedbackState) (fs : WorkFS), hwBounded st.hwCnts →
      (∀ c ∈ cs, hwBounded c.hwCnts) →
      hwLe st.hwCnts (fuzz_runUpdates st fs cs).1.hwCnts := by
  induction cs with
  | nil => intro st fs _ _; exact hwLe_refl _
  | cons c cs ih =>
    intro st fs hst hcs
    simp only [fuzz_runUpdates, fuzz_updateBest]
    by_cases hacc : fuzz_acceptCond st.hwCnts c.hwCnts = true
    · rw [if_pos hacc]
      have hc : hwBounded c.hwCnts := hcs c (List.mem_cons_self c cs)
      show hwLe st.hwCnts (fuzz_runUpdates { bestBytes := c.bytes, hwCnts := c.hwCnts }
        (fuzz_publishBest fs c.openOk c.writeOk c.bytes) cs).1.hwCnts
      exact hwLe_trans (fuzz_accept_hwLe _ _ hst hc hacc)
        (ih { bestBytes := c.bytes, hwCnts := c.hwCnts }
          (fuzz_publishBest fs c.openOk c.writeOk c.bytes) hc
          (fun x hx => hcs x (List.mem_cons_of_mem c hx)))
    · rw [if_neg hacc]
      exact ih st fs hst (fun x hx => hcs x (List.mem_cons_of_mem c hx))

theorem fuzz_publishBest_ok (fs : WorkFS) (openOk writeOk : Bool)
    (buf : List Nat) (A : List (List Nat)) (hA : currentBestOk fs.currentBest A)
    (hbuf : buf ∈ A) :
    currentBestOk (fuzz_publishBest fs openOk writeOk buf).currentBest A := by
  unfold fuzz_publishBest files_writeBufToFile
  cases openOk with
  | false => exact hA
  | true =>
    cases writeOk with
    | false => exact hA
    | true => exact Or.inr ⟨buf, hbuf, rfl⟩

theorem currentBestOk_mono {cb : Option (List Nat)} {A B : List (List Nat)}
    (h : currentBestOk cb A) (hAB : ∀ x ∈ A, x ∈ B) : currentBestOk cb B := by
  rcases h with h | ⟨bs, hbs, h⟩
  · exact Or.inl h
  · exact Or.inr ⟨bs, hAB bs hbs, h⟩

theorem fuzz_runUpdates_currentBestOk (cs : List Candidate) :
    ∀ (st : FeedbackState) (fs : WorkFS) (A : List (List Nat)),
      currentBestOk fs.currentBest A →
      currentBestOk (fuzz_runUpdates st fs cs).2.currentBest
        (A ++ fuzz_acceptedBests st cs) := by
  induction cs with
  | nil =>
    intro st fs A hA
    simpa [fuzz_runUpdates, fuzz_acceptedBests] using hA
  | cons c cs ih =>
    intro st fs A hA
    simp only [fuzz_runUpdates, fuzz_updateBest, fuzz_acceptedBests]
    by_cases hacc : fuzz_acceptCond st.hwCnts c.hwCnts = true
    · rw [if_pos hacc, if_pos hacc]
      have step := fuzz_publishBest_ok fs c.openOk c.writeOk c.bytes
        (A ++ [c.bytes])
        (currentBestOk_mono hA (fun x hx => List.mem_append_left _ hx))
        (List.mem_append_right _ (List.mem_singleton.mpr rfl))
      have h2 := ih { bestBytes := c.bytes, hwCnts := c.hwCnts } _ _ step
      refine currentBestOk_mono h2 (fun x hx => ?_)
      simp only [List.append_assoc, List.mem_append, List.mem_cons,
        List.mem_singleton] at hx ⊢
      tauto
    · rw [if_neg hacc, if_neg hacc]
      have h2 := ih st fs A hA
      exact h2

theorem fuzz_seedInitial_hwCnts (hz : DynState) (s : Option (List Nat))
    (hz1 : DynState) (h : fuzz_seedInitial hz s = some hz1) :
    hz1.hwCnts = hz.hwCnts := by
  unfold fuzz_seedInitial at h
  split at h
  · cases s with
    | none => exact absurd h (by simp)
    | some bs =>
      have := Option.some_inj.mp h
      rw [← this]
  · have := Option.some_inj.mp h
    rw [← this]

theorem fuzz_prepDyn_seed_none (hz : DynState) (seedRead : Option (List Nat))
    (resize mangle : List Nat → List Nat) (writeOk : Bool)
    (hs : fuzz_seedInitial hz seedRead = none) :
    fuzz_prepareFileDynamically hz seedRead resize mangle writeOk =
      DynPrepResult.failure hz := by
  unfold fuzz_prepareFileDynamically
  rw [hs]

theorem fuzz_prepDyn_seed_some (hz hz1 : DynState) (seedRead : Option (List Nat))
    (resize mangle : List Nat → List Nat) (writeOk : Bool)
    (hs : fuzz_seedInitial hz seedRead = some hz1) :
    fuzz_prepareFileDynamically hz seedRead resize mangle writeOk =
      (if hz1.dynamicFileBest.length > hz1.maxFileSz then DynPrepResult.fatalExit
       else if writeOk then
         DynPrepResult.success hz1
           (if anyCntNonzero hz1.hwCnts then mangle (resize hz1.dynamicFileBest)
            else hz1.dynamicFileBest)
       else DynPrepResult.failure hz1) := by
  unfold fuzz_prepareFileDynamically
  rw [hs]

theorem allCntZero_eq_false_of_any (h : Hwcnt)
    (ha : anyCntNonzero h = true) : allCntZero h = false := by
  rw [Bool.eq_false_iff]
  intro hz0
  simp only [allCntZero, Bool.and_eq_true, decide_eq_true_eq] at hz0
  simp only [anyCntNonzero, Bool.or_eq_true, decide_eq_true_eq] at ha
  obtain ⟨⟨⟨⟨e1, e2⟩, e3⟩, e4⟩, e5⟩ := hz0
  rcases ha with ((((ha | ha) | ha) | ha) | ha) <;> omega

theorem files_readdir_go_spec (entries : List DirEnt) :
    ∀ (acc : List DirEnt) (maxSz : Nat),
      files_readdir_go maxSz acc entries =
        if (acc ++ entries.filter (files_entryAccept maxSz)).length > 0
        then some (acc ++ entries.filter (files_entryAccept maxSz)) else none := by
  induction entries with
  | nil => intro acc maxSz; simp [files_readdir_go]
  | cons e rest ih =>
    intro acc maxSz
    by_cases h1 : e.statOk = false
    · have hacc : files_entryAccept maxSz e = false := by
        simp [files_entryAccept, h1]
      simp only [files_readdir_go, if_pos h1, List.filter_cons, hacc,
        if_neg Bool.false_ne_true]
      exact ih acc maxSz
    · rw [files_readdir_go, if_neg h1]
      by_cases h2 : e.kind ≠ FileKind.regular
      · have hacc : files_entryAccept maxSz e = false := by
          simp [files_entryAccept, h2]
        simp only [if_pos h2, List.filter_cons, hacc, if_neg Bool.false_ne_true]
        exact ih acc maxSz
      · rw [if_neg h2]
        by_cases h3 : e.size = 0
        · have hacc : files_entryAccept maxSz e = false := by
            simp [files_entryAccept, h3]
          simp only [if_pos h3, List.filter_cons, hacc, if_neg Bool.false_ne_true]
          exact ih acc maxSz
        · rw [if_neg h3]
          by_cases h4 : e.size > maxSz
          · have hacc : files_entryAccept maxSz e = false := by
              simp [files_entryAccept]
              omega
            simp only [if_pos h4, List.filter_cons, hacc, if_neg Bool.false_ne_true]
            exact ih acc maxSz
          · have hacc : files_entryAccept maxSz e = true := by
              simp only [not_not] at h2
              simp [files_entryAccept, h1, h2, h3]
              omega
            simp only [if_neg h4, List.filter_cons, hacc, if_pos rfl]
            rw [ih (acc ++ [e]) maxSz]
            simp

theorem files_readdir_mem (maxSz : Nat) (entries l : List DirEnt)
    (h : files_readdir maxSz entries = some l) :
    ∀ e ∈ l, e.statOk = true ∧ e.kind = FileKind.regular ∧ e.size ≠ 0 ∧
      e.size ≤ maxSz := by
  unfold files_readdir at h
  rw [files_readdir_go_spec] at h
  intro e he
  by_cases hpos : (([] : List DirEnt) ++ entries.filter (files_entryAccept maxSz)).length > 0
  · rw [if_pos hpos] at h
    have hl : l = entries.filter (files_entryAccept maxSz) := by
      simpa using (Option.some_injective _ h.symm)
    rw [hl] at he
    have := (List.mem_filter.mp he).2
    simp only [files_entryAccept, Bool.and_eq_true, decide_eq_true_eq] at this
    exact ⟨this.1.1.1, this.1.1.2, this.1.2, this.2⟩
  · rw [if_neg hpos] at h
    exact absurd h (by simp)

theorem files_parseBlacklist_go_spec (vs : List Nat) :
    ∀ (acc : List Nat), 2 ≤ acc.length →
      files_parseBlacklist_go acc vs =
        if List.Chain' (fun a b => a ≤ b) (acc.getD (acc.length - 1) 0 :: vs)
        then some (acc ++ vs) else none := by
  induction vs with
  | nil =>
    intro acc _
    simp [files_parseBlacklist_go, List.chain'_singleton]
  | cons v rest ih =>
    intro acc hacc
    have hlt : acc.length - 1 < acc.length := by omega
    have h1 : (acc ++ [v]).getD (acc.length - 1) 0 = acc.getD (acc.length - 1) 0 :=
      List.getD_append _ _ _ _ hlt
    have h2 : (acc ++ [v]).getD acc.length 0 = v := by
      rw [List.getD_append_right _ _ _ _ (le_refl _)]
      simp
    rw [files_parseBlacklist_go, h1, h2]
    by_cases hgt : acc.getD (acc.length - 1) 0 > v
    · have hcond : (decide (acc.length > 1) &&
          decide (acc.getD (acc.length - 1) 0 > v)) = true := by
        simp only [Bool.and_eq_true, decide_eq_true_eq]
        exact ⟨by omega, hgt⟩
      rw [if_pos hcond, if_neg]
      intro hch
      rw [List.chain'_cons] at hch
      omega
    · have hcond : ¬ (decide (acc.length > 1) &&
          decide (acc.getD (acc.length - 1) 0 > v)) = true := by
        simp only [Bool.and_eq_true, decide_eq_true_eq, not_and]
        intro _
        omega
      rw [if_neg hcond]
      rw [ih (acc ++ [v]) (by simp; omega)]
      have h3 : (acc ++ [v]).getD ((acc ++ [v]).length - 1) 0 = v := by
        have : (acc ++ [v]).length - 1 = acc.length := by simp
        rw [this, h2]
      rw [h3]
      have hle : acc.getD (acc.length - 1) 0 ≤ v := by omega
      have hiff : List.Chain' (fun a b : Nat => a ≤ b)
          (acc.getD (acc.length - 1) 0 :: v :: rest) ↔
          List.Chain' (fun a b : Nat => a ≤ b) (v :: rest) := by
        rw [List.chain'_cons]
        exact and_iff_right hle
      rw [if_congr hiff rfl rfl]
      simp

/-- Claim C1, counterexample: with the best instruction counter at
`2 ^ 63` and a candidate of all-zero counters, the code accepts (the
wrapped difference reinterpreted as `int64_t` is negative) although the
candidate is not `≥` the best in the unsigned order, so acceptance is
not equivalent to "for every dimension, candidate ≥ best over unsigned
64-bit values". -/
theorem fuzz_accept_unsigned_cex :
    fuzz_acceptCond hwHigh hwZero = true ∧ spec_dominates hwHigh hwZero = false := by
  constructor
  · decide
  · decide

/-- Claim C1 (amended): the update accepts iff all five differences
`best - cand`, computed modulo `2 ^ 64` and reinterpreted as signed
64-bit values, are `≤ 0`; when every counter of both vectors is below
`2 ^ 63` this coincides with the spec's rule "candidate ≥ best on every
dimension, compared over unsigned 64-bit values". -/
theorem fuzz_accept_iff_dominates (best cand : Hwcnt)
    (hb : hwBounded best) (hc : hwBounded cand) :
    fuzz_acceptCond best cand = true ↔ spec_dominates best cand = true := by
  obtain ⟨b1, b2, b3, b4, b5⟩ := hb
  obtain ⟨c1, c2, c3, c4, c5⟩ := hc
  simp only [fuzz_acceptCond, spec_dominates, Bool.and_eq_true, decide_eq_true_eq,
    diffLe0_eq_true_iff _ _ b1 c1, diffLe0_eq_true_iff _ _ b2 c2,
    diffLe0_eq_true_iff _ _ b3 c3, diffLe0_eq_true_iff _ _ b4 c4,
    diffLe0_eq_true_iff _ _ b5 c5]

/-- Claim C1, witness: the amended equivalence evaluated at concrete
bounded counter vectors. -/
theorem fuzz_accept_iff_dominates_witness :
    (hwBounded hwOne ∧ hwBounded hwTwo) ∧
    (fuzz_acceptCond hwOne hwTwo = true ↔ spec_dominates hwOne hwTwo = true) :=
  ⟨⟨by decide, by decide⟩,
   fuzz_accept_iff_dominates hwOne hwTwo (by decide) (by decide)⟩

/-- Claim C2, counterexample: with the best instruction counter at
`2 ^ 63`, an all-zero candidate is accepted and the best instruction
counter decreases, refuting unconditional monotonicity over unsigned
64-bit values. -/
theorem fuzz_best_decrease_cex :
    (fuzz_updateBest stHigh fs0 candLow).1.hwCnts.cpuInstrCnt <
      stHigh.hwCnts.cpuInstrCnt := by
  decide

/-- Claim C2 (amended): along any sequence of feedback-store updates in
which the starting best counters and all candidate counters are below
`2 ^ 63`, every dimension of the best counter vector is monotone
non-decreasing (the final best dominates any starting point, hence every
accepted step is non-decreasing). -/
theorem fuzz_best_counters_monotone (st : FeedbackState) (fs : WorkFS)
    (cs : List Candidate) (hst : hwBounded st.hwCnts)
    (hcs : ∀ c ∈ cs, hwBounded c.hwCnts) :
    hwLe st.hwCnts (fuzz_runUpdates st fs cs).1.hwCnts :=
  fuzz_runUpdates_hwLe cs st fs hst hcs

/-- Claim C2, witness: monotonicity evaluated on a concrete accepted
update. -/
theorem fuzz_best_counters_monotone_witness :
    (hwBounded stZero.hwCnts ∧ ∀ c ∈ [candAccept], hwBounded c.hwCnts) ∧
    hwLe stZero.hwCnts (fuzz_runUpdates stZero fs0 [candAccept]).1.hwCnts :=
  ⟨⟨by decide, by decide⟩,
   fuzz_best_counters_monotone stZero fs0 [candAccept] (by decide) (by decide)⟩

/-- Claim C3, counterexample: in plain mode, a seed-read failure makes
the preparation phase of the worker loop call `exit(EXIT_FAILURE)`
(fuzz.c:308-310): the process terminates instead of continuing with the
next iteration. -/
theorem fuzz_prep_error_exit_cex :
    fuzz_fuzzLoopPrepPhase dynZero false false none id id true extOk =
      PrepPhaseOutcome.processExitFailure := by
  decide

/-- Claim C3 (amended): every per-iteration preparation error —
dynamic-mode failure (seed read or candidate write), external-mutator
failure, or plain-mode failure (seed read or candidate write) — makes
`fuzz_fuzzLoop` terminate the process with `exit(EXIT_FAILURE)` rather
than continue with the next iteration. -/
theorem fuzz_prep_failure_terminates (hz : DynState)
    (dynMethodSet hasExternal : Bool) (seedRead : Option (List Nat))
    (resize mangle : List Nat → List Nat) (writeOk : Bool) (ext : ExtEnv) :
    (∀ hz1, dynMethodSet = true →
        fuzz_prepareFileDynamically hz seedRead resize mangle writeOk =
          DynPrepResult.failure hz1 →
        fuzz_fuzzLoopPrepPhase hz dynMethodSet hasExternal seedRead resize
          mangle writeOk ext = PrepPhaseOutcome.processExitFailure) ∧
    (dynMethodSet = false → hasExternal = true →
        fuzz_prepareFileExternally ext = false →
        fuzz_fuzzLoopPrepPhase hz dynMethodSet hasExternal seedRead resize
          mangle writeOk ext = PrepPhaseOutcome.processExitFailure) ∧
    (dynMethodSet = false → hasExternal = false →
        fuzz_prepareFile seedRead resize mangle writeOk = none →
        fuzz_fuzzLoopPrepPhase hz dynMethodSet hasExternal seedRead resize
          mangle writeOk ext = PrepPhaseOutcome.processExitFailure) := by
  refine ⟨?_, ?_, ?_⟩
  · intro hz1 hd hp
    simp [fuzz_fuzzLoopPrepPhase, hd, hp]
  · intro hd he hp
    simp [fuzz_fuzzLoopPrepPhase, hd, he, hp]
  · intro hd he hp
    simp [fuzz_fuzzLoopPrepPhase, hd, he, hp]

/-- Claim C3, witness: the amended claim evaluated on a concrete
plain-mode iteration whose candidate write fails. -/
theorem fuzz_prep_failure_terminates_witness :
    fuzz_prepareFile (some [4]) id id false = none ∧
    fuzz_fuzzLoopPrepPhase dynZero false false (some [4]) id id false extOk =
      PrepPhaseOutcome.processExitFailure :=
  ⟨rfl, (fuzz_prep_failure_terminates dynZero false false (some [4]) id id
    false extOk).2.2 rfl rfl rfl⟩

/-- Claim C4: starting from a workspace without `CURRENT_BEST`, after
any sequence of feedback-store updates the file `CURRENT_BEST` either
does not exist or is byte-identical to the bytes of some accepted best
buffer (the new best being written completely to `.tmp.CURRENT_BEST`,
with the partial file unlinked on write failure, and only then renamed
onto `CURRENT_BEST`). -/
theorem fuzz_currentBest_integrity (st : FeedbackState) (fs : WorkFS)
    (cs : List Candidate) (h : fs.currentBest = none) :
    (fuzz_runUpdates st fs cs).2.currentBest = none ∨
    ∃ bs ∈ fuzz_acceptedBests st cs,
      (fuzz_runUpdates st fs cs).2.currentBest = some bs := by
  have hrun := fuzz_runUpdates_currentBestOk cs st fs [] (Or.inl h)
  simpa [currentBestOk] using hrun

/-- Claim C4, witness: the integrity invariant evaluated on a concrete
accepted update from an empty workspace. -/
theorem fuzz_currentBest_integrity_witness :
    fs0.currentBest = none ∧
    ((fuzz_runUpdates stZero fs0 [candAccept]).2.currentBest = none ∨
      ∃ bs ∈ fuzz_acceptedBests stZero [candAccept],
        (fuzz_runUpdates stZero fs0 [candAccept]).2.currentBest = some bs) :=
  ⟨rfl, fuzz_currentBest_integrity stZero fs0 [candAccept] rfl⟩

/-- Claim C5, counterexample: the external mutator child exits normally
with status 1; the spec's rule demands a failed iteration, but
`fuzz_prepareFileExternally` reports success (only `WIFEXITED` is
checked, the status is merely logged). -/
theorem fuzz_ext_nonzero_exit_cex :
    fuzz_prepareFileExternally extExit1 = true ∧
    spec_extMutFails extExit1.childStatus = true := by
  constructor
  · decide
  · decide

/-- Claim C5 (amended): external-mutator preparation succeeds iff the
temporary file is created, the optional seed copy succeeds (when an
input corpus is configured), `fork` succeeds, and the child terminates
by normal exit — with any exit status, zero or not; it fails exactly on
the remaining cases, in particular whenever the child is terminated by a
signal. -/
theorem fuzz_ext_prep_success_iff (e : ExtEnv) :
    fuzz_prepareFileExternally e = true ↔
      (e.openOk = true ∧
       (e.inputFile = true → (∃ bs, e.seedRead = some bs) ∧ e.writeOk = true) ∧
       e.forkOk = true ∧ ∃ c, e.childStatus = ChildStatus.exited c) := by
  obtain ⟨o, inp, sr, w, f, st⟩ := e
  simp only [fuzz_prepareFileExternally]
  cases o <;> cases inp <;> cases sr <;> cases w <;> cases f <;> cases st <;>
    simp

/-- Claim C6, counterexample: on the first dynamic pass (all counters
zero) the candidate materialized is the freshly seeded snapshot `[5]`
itself, although applying the resize and mangle transformations to that
snapshot would give a different buffer — so resize and mangle are not
applied on the first iteration. -/
theorem fuzz_dyn_first_pass_cex :
    fuzz_prepareFileDynamically dynZero (some [5]) consZero consOne true =
      DynPrepResult.success dynSeeded [5] ∧
    consOne (consZero [5]) ≠ [5] := by
  constructor
  · decide
  · decide

/-- Claim C6 (amended): whenever the dynamic preparation succeeds, the
materialized candidate is the snapshot of the (possibly just seeded)
best bytes with resize and mangle applied iff at least one recorded
feedback counter is non-zero; on the very first pass (all counters
zero) the snapshot is materialized unmodified. -/
theorem fuzz_dyn_mangle_iff_counters (hz : DynState)
    (seedRead : Option (List Nat)) (resize mangle : List Nat → List Nat)
    (writeOk : Bool) (hz1 : DynState) (buf : List Nat)
    (h : fuzz_prepareFileDynamically hz seedRead resize mangle writeOk =
        DynPrepResult.success hz1 buf) :
    buf = if anyCntNonzero hz.hwCnts then mangle (resize hz1.dynamicFileBest)
          else hz1.dynamicFileBest := by
  cases hseed : fuzz_seedInitial hz seedRead with
  | none =>
    rw [fuzz_prepDyn_seed_none hz seedRead resize mangle writeOk hseed] at h
    exact absurd h (by simp)
  | some hz2 =>
    rw [fuzz_prepDyn_seed_some hz hz2 seedRead resize mangle writeOk hseed] at h
    have hcnts := fuzz_seedInitial_hwCnts hz seedRead hz2 hseed
    by_cases hlen : hz2.dynamicFileBest.length > hz2.maxFileSz
    · rw [if_pos hlen] at h
      exact absurd h (by simp)
    · rw [if_neg hlen] at h
      by_cases hw : writeOk = true
      · rw [if_pos hw] at h
        have h1 : hz2 = hz1 := (DynPrepResult.success.injEq _ _ _ _).mp h |>.1
        have h2 : (if anyCntNonzero hz2.hwCnts then
            mangle (resize hz2.dynamicFileBest) else hz2.dynamicFileBest) = buf :=
          (DynPrepResult.success.injEq _ _ _ _).mp h |>.2
        rw [← h2, ← h1, hcnts]
      · rw [if_neg hw] at h
        exact absurd h (by simp)

/-- Claim C6, witness: with counters already recorded, the successful
preparation materializes the mangled resized snapshot. -/
theorem fuzz_dyn_mangle_iff_counters_witness :
    fuzz_prepareFileDynamically dynBusy none consZero consOne true =
      DynPrepResult.success dynBusy [1, 0, 7] ∧
    [1, 0, 7] = (if anyCntNonzero dynBusy.hwCnts then
      consOne (consZero dynBusy.dynamicFileBest) else dynBusy.dynamicFileBest) :=
  ⟨by decide, fuzz_dyn_mangle_iff_counters dynBusy none consZero consOne true
    dynBusy [1, 0, 7] (by decide)⟩

/-- Claim C9: once any recorded feedback counter is non-zero, the lazy
seeding step of the dynamic preparation is a no-op — it does not read
the seed file (the preparation's result does not depend on the seed-read
outcome) and leaves the best bytes and size unchanged. -/
theorem fuzz_dyn_seeding_idempotent (hz : DynState)
    (s1 s2 : Option (List Nat)) (resize mangle : List Nat → List Nat)
    (writeOk : Bool) (h : anyCntNonzero hz.hwCnts = true) :
    fuzz_seedInitial hz s1 = some hz ∧
    fuzz_prepareFileDynamically hz s1 resize mangle writeOk =
      fuzz_prepareFileDynamically hz s2 resize mangle writeOk := by
  have hz0 : allCntZero hz.hwCnts = false := allCntZero_eq_false_of_any _ h
  have hs : ∀ s : Option (List Nat), fuzz_seedInitial hz s = some hz := by
    intro s
    unfold fuzz_seedInitial
    rw [hz0]
    simp
  refine ⟨hs s1, ?_⟩
  rw [fuzz_prepDyn_seed_some hz hz s1 resize mangle writeOk (hs s1),
    fuzz_prepDyn_seed_some hz hz s2 resize mangle writeOk (hs s2)]

/-- Claim C9, witness: with non-zero counters, preparation ignores the
seed-read outcome and the seeding step returns the state unchanged. -/
theorem fuzz_dyn_seeding_idempotent_witness :
    anyCntNonzero dynBusy.hwCnts = true ∧
    fuzz_seedInitial dynBusy (some [9]) = some dynBusy ∧
    fuzz_prepareFileDynamically dynBusy (some [9]) consZero consOne true =
      fuzz_prepareFileDynamically dynBusy none consZero consOne true :=
  ⟨by decide,
   (fuzz_dyn_seeding_idempotent dynBusy (some [9]) none consZero consOne true
     (by decide)).1,
   (fuzz_dyn_seeding_idempotent dynBusy (some [9]) none consZero consOne true
     (by decide)).2⟩

/-- Claim C7: when the input path is a directory (and `stat` succeeds on
every child), corpus loading returns exactly the immediate children
that are regular, non-empty files of size at most the maximum — the
rest are skipped — and fails iff that set is empty; when the input path
is a regular file of size at most the maximum, loading returns the
singleton containing it. -/
theorem files_corpus_loading (cfg : InitCfg) :
    (∀ entries, cfg.inputFile = some (InputStat.isDir entries) →
        (∀ e ∈ entries, e.statOk = true) →
        files_init cfg =
          (if entries.filter (goodSeedFile cfg.maxFileSz) = [] then none
           else some ((entries.filter (goodSeedFile cfg.maxFileSz)).map
             SeedEntry.real))) ∧
    (∀ sz, cfg.inputFile = some (InputStat.isReg sz) → sz ≤ cfg.maxFileSz →
        files_init cfg = some [SeedEntry.real
          { ident := 0, statOk := true, kind := FileKind.regular, size := sz }]) := by
  constructor
  · intro entries hin hstat
    have hfe : entries.filter (files_entryAccept cfg.maxFileSz) =
        entries.filter (goodSeedFile cfg.maxFileSz) := by
      apply List.filter_congr
      intro e he
      simp [files_entryAccept, goodSeedFile, hstat e he]
    simp only [files_init, hin, Option.isNone_some, Bool.and_false,
      Bool.false_eq_true, if_false]
    unfold files_readdir
    rw [files_readdir_go_spec, List.nil_append, hfe]
    by_cases hnil : entries.filter (goodSeedFile cfg.maxFileSz) = []
    · simp [hnil]
    · have hpos : 0 < (entries.filter (goodSeedFile cfg.maxFileSz)).length :=
        List.length_pos.mpr hnil
      simp [hnil, hpos]
  · intro sz hin hsz
    simp only [files_init, hin, Option.isNone_some, Bool.and_false,
      Bool.false_eq_true, if_false]
    rw [if_neg (by omega)]

/-- Claim C7, witness: loading a directory with one good entry yields
exactly that entry, and loading it is evaluated concretely. -/
theorem files_corpus_loading_witness :
    (∀ e ∈ [entGood], e.statOk = true) ∧
    files_init cfgDir =
      (if [entGood].filter (goodSeedFile cfgDir.maxFileSz) = [] then none
       else some (([entGood].filter (goodSeedFile cfgDir.maxFileSz)).map
         SeedEntry.real)) :=
  ⟨by decide, (files_corpus_loading cfgDir).1 [entGood] rfl (by decide)⟩

/-- Claim C8, counterexample: with the input path a regular file of size
0, `files_init` succeeds (files.c:263-276 checks only the size upper
bound) and the resulting seed set contains an empty file, refuting
"every entry is non-empty" for the single-file case. -/
theorem files_init_empty_file_cex :
    files_init cfgEmptyFile = some [SeedEntry.real entEmpty] ∧
    entEmpty.size = 0 := by
  constructor
  · decide
  · decide

/-- Claim C8 (amended): after a successful `files_init` with a real
input path, every seed entry is a real, regular file of size at most
the configured maximum; non-emptiness additionally holds when the input
path was a directory, but a single-file input may be empty. -/
theorem files_init_real_entries_sound (cfg : InitCfg) (ist : InputStat)
    (ses : List SeedEntry) (h1 : cfg.inputFile = some ist)
    (h2 : files_init cfg = some ses) :
    ∀ se ∈ ses, ∃ e, se = SeedEntry.real e ∧ e.kind = FileKind.regular ∧
      e.size ≤ cfg.maxFileSz ∧
      ∀ entries, ist = InputStat.isDir entries → e.size ≠ 0 := by
  cases ist with
  | statFail => simp [files_init, h1] at h2
  | isOther => simp [files_init, h1] at h2
  | isDir entries =>
    simp only [files_init, h1, Option.isNone_some, Bool.and_false,
      Bool.false_eq_true, if_false] at h2
    cases hrd : files_readdir cfg.maxFileSz entries with
    | none => rw [hrd] at h2; simp at h2
    | some l =>
      rw [hrd] at h2
      simp only [Option.map_some', Option.some_inj] at h2
      have hmem := files_readdir_mem cfg.maxFileSz entries l hrd
      intro se hse
      rw [← h2] at hse
      obtain ⟨e, hel, hereal⟩ := List.mem_map.mp hse
      obtain ⟨hst, hk, hs0, hsz⟩ := hmem e hel
      exact ⟨e, hereal.symm, hk, hsz, fun _ _ => hs0⟩
  | isReg sz =>
    by_cases hsz : sz > cfg.maxFileSz
    · simp [files_init, h1, hsz] at h2
    · simp only [files_init, h1, Option.isNone_some, Bool.and_false,
        Bool.false_eq_true, if_false] at h2
      rw [if_neg hsz] at h2
      have hses := Option.some_inj.mp h2
      intro se hse
      rw [← hses] at hse
      have hform : se = SeedEntry.real
          { ident := 0, statOk := true, kind := FileKind.regular, size := sz } := by
        simpa using hse
      refine ⟨{ ident := 0, statOk := true, kind := FileKind.regular, size := sz },
        hform, rfl, Nat.le_of_not_lt hsz, ?_⟩
      intro entries hcontra
      exact absurd hcontra (by simp)

/-- Claim C8, witness: the amended invariant evaluated on a concrete
directory corpus. -/
theorem files_init_real_entries_sound_witness :
    files_init cfgDir = some [SeedEntry.real entGood] ∧
    (∀ se ∈ [SeedEntry.real entGood], ∃ e, se = SeedEntry.real e ∧
      e.kind = FileKind.regular ∧ e.size ≤ cfgDir.maxFileSz ∧
      ∀ entries, InputStat.isDir [entGood] = InputStat.isDir entries →
        e.size ≠ 0) :=
  ⟨by decide, files_init_real_entries_sound cfgDir (InputStat.isDir [entGood])
    [SeedEntry.real entGood] rfl (by decide)⟩

/-- Claim C10: the blacklist parser verifies ascending order only from
the third entry onward — a file of at least two values whose only
inversion is between the first and second values parses successfully
and returns the list with the inversion intact, while an inversion at
any later adjacent pair (a violation of the chain over the tail) makes
parsing fail. -/
theorem files_blacklist_order_check (v0 v1 : Nat) (rest : List Nat) :
    (v0 > v1 → List.Chain' (fun a b => a ≤ b) (v1 :: rest) →
        files_parseBlacklist (v0 :: v1 :: rest) = some (v0 :: v1 :: rest)) ∧
    (¬ List.Chain' (fun a b => a ≤ b) (v1 :: rest) →
        files_parseBlacklist (v0 :: v1 :: rest) = none) := by
  have hstep : files_parseBlacklist (v0 :: v1 :: rest) =
      files_parseBlacklist_go [v0, v1] rest := by
    simp [files_parseBlacklist, files_parseBlacklist_go]
  have hspec := files_parseBlacklist_go_spec rest [v0, v1] (by norm_num)
  have hget : ([v0, v1] : List Nat).getD (([v0, v1] : List Nat).length - 1) 0 = v1 := by
    norm_num
  rw [hget] at hspec
  constructor
  · intro _ hch
    rw [hstep, hspec, if_pos hch]
    simp
  · intro hch
    rw [hstep, hspec, if_neg hch]

/-- Claim C10, witness: a list whose only inversion is between the first
two values parses successfully and keeps the inversion. -/
theorem files_blacklist_order_check_witness :
    (5 > 3 ∧ List.Chain' (fun a b : Nat => a ≤ b) [3, 4, 9]) ∧
    files_parseBlacklist [5, 3, 4, 9] = some [5, 3, 4, 9] :=
  ⟨⟨by norm_num, by norm_num [List.chain'_cons, List.chain'_singleton]⟩,
   (files_blacklist_order_check 5 3 [4, 9]).1 (by norm_num)
     (by norm_num [List.chain'_cons, List.chain'_singleton])⟩
